import Mathlib

/-!
Shallow embedding of the MFEK glif2svg converter (src/main.rs) and proofs
about its spec.  Numeric values (f32/f64 in the source) are modelled as
exact rationals; machine-float rounding is outside the model.
-/

namespace Glif2Svg

/-- Points are coordinate pairs, as in skia_safe::Point (x, y). -/
abbrev Point : Type := ℚ × ℚ

/-- Truncation toward zero of a rational, modelling f32::trunc composed with
the integer read-back in SVGPathPen::p. -/
def ratTrunc (q : ℚ) : ℤ := if 0 ≤ q then ⌊q⌋ else ⌈q⌉

/-- Model of the external glifparser::IntegerOrFloat value produced by
SVGPathPen::p.  A value with zero fractional part becomes an integer. -/
inductive IntegerOrFloat : Type
  | integer (n : ℤ)
  | float (q : ℚ)
deriving DecidableEq

/-- Conversion from a numeric value, modelling From of f32 for
IntegerOrFloat in glifparser: integral values take the integer branch. -/
def IntegerOrFloat.ofRat (q : ℚ) : IntegerOrFloat :=
  if q.den = 1 then .integer q.num else .float q

/-- Display of an IntegerOrFloat, modelling the Display impl in glifparser:
integers are rendered with no fractional suffix (no trailing dot-zero);
non-integral values render through a purely numeric form (the crate prints
a decimal float; here the exact numerator/denominator pair stands in -
either way the text contains no SVG path command letter). -/
def IntegerOrFloat.display : IntegerOrFloat → String
  | .integer n => toString n
  | .float q => toString q.num ++ "/" ++ toString q.den

/-- State of the conversion, modelling struct SVGPathPen in src/main.rs.
The derivative Default gives empty path, zero extrema, precision 4 and
no_viewbox false. -/
structure SVGPathPen : Type where
  path : String
  minx : ℚ
  maxx : ℚ
  miny : ℚ
  maxy : ℚ
  precision : ℕ
  no_viewbox : Bool
deriving DecidableEq

/-- SVGPathPen::new, the derived Default: precision defaults to 4 via the
derivative attribute on the struct. -/
def SVGPathPen.new : SVGPathPen :=
  { path := "", minx := 0, maxx := 0, miny := 0, maxy := 0,
    precision := 4, no_viewbox := false }

/-- One iteration of the loop body of consider_min_max in src/main.rs:
four independent widening updates of the extrema. -/
def considerPoint (svg : SVGPathPen) (p : Point) : SVGPathPen :=
  let s1 := if svg.minx > p.1 then { svg with minx := p.1 } else svg
  let s2 := if s1.maxx < p.1 then { s1 with maxx := p.1 } else s1
  let s3 := if s2.miny > p.2 then { s2 with miny := p.2 } else s2
  if s3.maxy < p.2 then { s3 with maxy := p.2 } else s3

/-- consider_min_max from src/main.rs: fold the widening step over the
supplied points. -/
def consider_min_max (svg : SVGPathPen) (points : List Point) : SVGPathPen :=
  points.foldl considerPoint svg

/-- SVGPathPen::extend_path. -/
def SVGPathPen.extend_path (s : SVGPathPen) (t : String) : SVGPathPen :=
  { s with path := s.path ++ t }

/-- SVGPathPen::viewBox: the (x, y, dx, dy) tuple with the additive extent
formula from src/main.rs line 52. -/
def SVGPathPen.viewBox (s : SVGPathPen) : ℚ × ℚ × ℚ × ℚ :=
  (s.minx, s.miny, |s.minx| + s.maxx, |s.miny| + s.maxy)

/-- SVGPathPen::width. -/
def SVGPathPen.width (s : SVGPathPen) : ℚ := s.viewBox.2.2.1

/-- SVGPathPen::height. -/
def SVGPathPen.height (s : SVGPathPen) : ℚ := s.viewBox.2.2.2

/-- SVGPathPen::p, the precision formatter: truncate value times ten to the
precision, divide back down. -/
def SVGPathPen.p (s : SVGPathPen) (v : ℚ) : ℚ :=
  (ratTrunc (v * 10 ^ s.precision) : ℚ) / 10 ^ s.precision

/-- Text of a precision-formatted value, modelling the Display interpolation
of self.p(..) inside the format! calls. -/
def SVGPathPen.pStr (s : SVGPathPen) (v : ℚ) : String :=
  (IntegerOrFloat.ofRat (s.p v)).display

/-- SVGPathPen::size_attr_impl: a named pixel-size attribute. -/
def SVGPathPen.size_attr_impl (s : SVGPathPen) (name : String) (size : ℚ) :
    String × String :=
  (name, s.pStr size ++ "px")

/-- SVGPathPen::px_size_attrs. -/
def SVGPathPen.px_size_attrs (s : SVGPathPen) : List (String × String) :=
  [s.size_attr_impl ("width") s.width, s.size_attr_impl ("height") s.height]

/-- SVGPathPen::viewBox_str: the four formatted components of the viewBox. -/
def SVGPathPen.viewBox_str (s : SVGPathPen) : String :=
  s.pStr s.viewBox.1 ++ " " ++ s.pStr s.viewBox.2.1 ++ " " ++
    s.pStr s.viewBox.2.2.1 ++ " " ++ s.pStr s.viewBox.2.2.2

/-- SVGPathPen::transform_x: the identity. -/
def SVGPathPen.transform_x (_s : SVGPathPen) (x : ℚ) : ℚ := x

/-- SVGPathPen::transform_y_viewBox. -/
def SVGPathPen.transform_y_viewBox (s : SVGPathPen) (y : ℚ) : ℚ :=
  -y + s.maxy + s.miny

/-- SVGPathPen::transform_y_wh. -/
def SVGPathPen.transform_y_wh (s : SVGPathPen) (y : ℚ) : ℚ :=
  -y + s.miny

/-- SVGPathPen::transform_y: selected by the no_viewbox flag. -/
def SVGPathPen.transform_y (s : SVGPathPen) (y : ℚ) : ℚ :=
  if s.no_viewbox then s.transform_y_wh y else s.transform_y_viewBox y

/-- SVGPathPen::move_to. -/
def SVGPathPen.move_to (s : SVGPathPen) (pt : Point) : SVGPathPen :=
  let s := consider_min_max s [pt]
  s.extend_path ("M " ++ s.pStr pt.1 ++ " " ++ s.pStr pt.2)

/-- SVGPathPen::line_to. -/
def SVGPathPen.line_to (s : SVGPathPen) (pt : Point) : SVGPathPen :=
  let s := consider_min_max s [pt]
  s.extend_path ("L " ++ s.pStr pt.1 ++ " " ++ s.pStr pt.2)

/-- SVGPathPen::curve_to: the slice holds the current point followed by two
controls and the destination; all four feed the accumulator, the last three
are emitted. -/
def SVGPathPen.curve_to (s : SVGPathPen) (p0 p1 p2 p3 : Point) : SVGPathPen :=
  let s := consider_min_max s [p0, p1, p2, p3]
  s.extend_path ("C " ++ s.pStr p1.1 ++ " " ++ s.pStr p1.2 ++ " " ++
    s.pStr p2.1 ++ " " ++ s.pStr p2.2 ++ " " ++ s.pStr p3.1 ++ " " ++ s.pStr p3.2)

/-- SVGPathPen::qcurve_to: current point, control, destination; all three
feed the accumulator, the last two are emitted. -/
def SVGPathPen.qcurve_to (s : SVGPathPen) (p0 p1 p2 : Point) : SVGPathPen :=
  let s := consider_min_max s [p0, p1, p2]
  s.extend_path ("Q " ++ s.pStr p1.1 ++ " " ++ s.pStr p1.2 ++ " " ++
    s.pStr p2.1 ++ " " ++ s.pStr p2.2)

/-- SVGPathPen::close_path. -/
def SVGPathPen.close_path (s : SVGPathPen) : SVGPathPen :=
  s.extend_path ("Z")

/-- Skia path verbs as yielded by the iterator in apply_outline, with the
point slice each verb carries (index 0 is the current point). -/
inductive Verb : Type
  | move (p0 : Point)
  | line (p0 p1 : Point)
  | quad (p0 p1 p2 : Point)
  | conic (p0 p1 p2 : Point) (w : ℚ)
  | cubic (p0 p1 p2 p3 : Point)
  | close
  | done
deriving DecidableEq

/-- Whether the verb is one of the five handled by the match in
apply_outline; conic and done fall to the wildcard arm. -/
def Verb.supported : Verb → Bool
  | .move _ => true
  | .line _ _ => true
  | .quad _ _ _ => true
  | .cubic _ _ _ _ => true
  | .close => true
  | _ => false

/-- Points an arm of the apply_outline match hands to consider_min_max. -/
def Verb.consumedPoints : Verb → List Point
  | .move p0 => [p0]
  | .line _ p1 => [p1]
  | .quad p0 p1 p2 => [p0, p1, p2]
  | .cubic p0 p1 p2 p3 => [p0, p1, p2, p3]
  | _ => []

/-- Map a function over every point of a verb. -/
def Verb.mapPoints (f : Point → Point) : Verb → Verb
  | .move p0 => .move (f p0)
  | .line p0 p1 => .line (f p0) (f p1)
  | .quad p0 p1 p2 => .quad (f p0) (f p1) (f p2)
  | .conic p0 p1 p2 w => .conic (f p0) (f p1) (f p2) w
  | .cubic p0 p1 p2 p3 => .cubic (f p0) (f p1) (f p2) (f p3)
  | .close => .close
  | .done => .done

/-- The SkiaPointTransforms closure pair passed to to_skia_paths: calc_x is
transform_x, calc_y is transform_y, both read from the pen at entry. -/
def transformPt (s : SVGPathPen) (pt : Point) : Point :=
  (s.transform_x pt.1, s.transform_y pt.2)

/-- One arm of the match on verbs inside apply_outline.  The wildcard arm is
the unimplemented! panic, modelled as none. -/
def applyVerb (s : SVGPathPen) : Verb → Option SVGPathPen
  | .move p0 => some (s.move_to p0)
  | .line _ p1 => some (s.line_to p1)
  | .quad p0 p1 p2 => some (s.qcurve_to p0 p1 p2)
  | .cubic p0 p1 p2 p3 => some (s.curve_to p0 p1 p2 p3)
  | .close => some s.close_path
  | _ => none

/-- The verb loop of apply_outline over an already-transformed verb stream. -/
def applyVerbs (s : SVGPathPen) : List Verb → Option SVGPathPen
  | [] => some s
  | v :: rest =>
    match applyVerb s v with
    | some s1 => applyVerbs s1 rest
    | none => none

/-- SVGPathPen::apply_outline: to_skia_paths first applies the coordinate
transforms to every point of the outline, then the verb loop feeds the
transformed points to the pen callbacks. -/
def apply_outline (s : SVGPathPen) (outline : List Verb) : Option SVGPathPen :=
  applyVerbs s (outline.map (Verb.mapPoints (transformPt s)))

/-- The four extrema of a pen state, in the order minx, maxx, miny, maxy. -/
def extrema (s : SVGPathPen) : ℚ × ℚ × ℚ × ℚ :=
  (s.minx, s.maxx, s.miny, s.maxy)

/-- Configuration of one run, from the parsed command line in main. -/
structure Config : Type where
  no_viewbox : Bool
  no_metrics : Bool
  precision : ℕ
deriving DecidableEq

/-- Default of the clap precision argument in main (default_value 16). -/
def cliDefaultPrecision : ℕ := 16

/-- Outcome of the external metrics collaborator in main: the metadata
module may be unavailable, the ascender/descender lookup may fail, or it
returns the two metrics. -/
inductive MetricsResult : Type
  | unavailable
  | failed
  | ok (ascender descender : ℚ)
deriving DecidableEq

/-- The pen right after construction and flag assignment in main lines
209-211: fresh state, then precision and no_viewbox from the arguments. -/
def configuredPen (cfg : Config) : SVGPathPen :=
  { SVGPathPen.new with precision := cfg.precision, no_viewbox := cfg.no_viewbox }

/-- The metrics block of main (lines 213-231).  With metrics enabled and the
module available, a successful lookup seeds maxy/miny from ascender and
descender; a failed lookup instead applies the outline early.  Otherwise the
pen is untouched (only a warning is printed). -/
def seedMetrics (svg : SVGPathPen) (cfg : Config) (metrics : MetricsResult)
    (outline : Option (List Verb)) : Option SVGPathPen :=
  if cfg.no_metrics then some svg else
  match metrics with
  | .unavailable => some svg
  | .ok a d => some { svg with maxy := a, miny := d }
  | .failed =>
    match outline with
    | some o => apply_outline svg o
    | none => some svg

/-- The width block of main (lines 233-236): unless no_metrics is set, minx
is zeroed and maxx seeded from the glyph advance width (0 when absent). -/
def seedWidth (svg : SVGPathPen) (cfg : Config) (width : Option ℕ) : SVGPathPen :=
  if cfg.no_metrics then svg
  else { svg with minx := 0, maxx := (width.getD 0 : ℕ) }

/-- The sizing attributes main inserts on the svg element (lines 245-251):
width/height in px when no_viewbox is set, otherwise the viewBox string. -/
def mkSizing (s : SVGPathPen) : List (String × String) :=
  if s.no_viewbox then s.px_size_attrs else [("viewBox", s.viewBox_str)]

/-- The guarded outline application of main (lines 264-266). -/
def applyOutlineOpt (s : SVGPathPen) : Option (List Verb) → Option SVGPathPen
  | some o => apply_outline s o
  | none => some s

/-- Observable output of one conversion: the sizing attributes, the d
attribute of the path element, and the final pen state. -/
structure MainOutput : Type where
  sizing : List (String × String)
  d : String
  final : SVGPathPen
deriving DecidableEq

/-- The core data flow of main in src/main.rs: configure the pen, run the
metrics block, seed minx/maxx from the advance width, emit the sizing
attributes, then apply the outline and emit its path data.  A panic
(unimplemented! on an unsupported verb) aborts the run with no output. -/
def runMain (cfg : Config) (metrics : MetricsResult) (width : Option ℕ)
    (outline : Option (List Verb)) : Option MainOutput :=
  match seedMetrics (configuredPen cfg) cfg metrics outline with
  | none => none
  | some svg1 =>
    let svg2 := seedWidth svg1 cfg width
    let sizing := mkSizing svg2
    match applyOutlineOpt svg2 outline with
    | none => none
    | some svg3 => some { sizing := sizing, d := svg3.path, final := svg3 }

/-- The five SVG path-data command letters the transcoder emits. -/
def isCommandChar (c : Char) : Bool :=
  c == 'M' || c == 'L' || c == 'Q' || c == 'C' || c == 'Z'

/-- A character that is neither a command letter nor a decimal point. -/
def plainChar (c : Char) : Bool :=
  !(isCommandChar c) && !(c == '.')

/-- Number of command letters occurring in a string; each verb processed by
the transcoder contributes exactly one. -/
def countCommands (s : String) : ℕ :=
  (s.data.filter isCommandChar).length

/-- The pen state whose sizing the metrics-seeded run emits: empty path,
minx zero, maxx the advance width, miny the descender, maxy the ascender,
flags from the configuration.  It mentions no outline geometry at all. -/
def metricsSeededPen (cfg : Config) (a d : ℚ) (w : Option ℕ) : SVGPathPen :=
  { path := "", minx := 0, maxx := (w.getD 0 : ℕ), miny := d, maxy := a,
    precision := cfg.precision, no_viewbox := cfg.no_viewbox }

/-! Helper lemmas about the geometry accumulator. -/

theorem considerPoint_minx (s : SVGPathPen) (p : Point) :
    (considerPoint s p).minx = if s.minx > p.1 then p.1 else s.minx := by
  unfold considerPoint
  by_cases h1 : s.minx > p.1 <;> by_cases h2 : s.maxx < p.1 <;>
    by_cases h3 : s.miny > p.2 <;> by_cases h4 : s.maxy < p.2 <;>
    simp [h1, h2, h3, h4]

theorem considerPoint_maxx (s : SVGPathPen) (p : Point) :
    (considerPoint s p).maxx = if s.maxx < p.1 then p.1 else s.maxx := by
  unfold considerPoint
  by_cases h1 : s.minx > p.1 <;> by_cases h2 : s.maxx < p.1 <;>
    by_cases h3 : s.miny > p.2 <;> by_cases h4 : s.maxy < p.2 <;>
    simp [h1, h2, h3, h4]

theorem considerPoint_miny (s : SVGPathPen) (p : Point) :
    (considerPoint s p).miny = if s.miny > p.2 then p.2 else s.miny := by
  unfold considerPoint
  by_cases h1 : s.minx > p.1 <;> by_cases h2 : s.maxx < p.1 <;>
    by_cases h3 : s.miny > p.2 <;> by_cases h4 : s.maxy < p.2 <;>
    simp [h1, h2, h3, h4]

theorem considerPoint_maxy (s : SVGPathPen) (p : Point) :
    (considerPoint s p).maxy = if s.maxy < p.2 then p.2 else s.maxy := by
  unfold considerPoint
  by_cases h1 : s.minx > p.1 <;> by_cases h2 : s.maxx < p.1 <;>
    by_cases h3 : s.miny > p.2 <;> by_cases h4 : s.maxy < p.2 <;>
    simp [h1, h2, h3, h4]

theorem considerPoint_path (s : SVGPathPen) (p : Point) :
    (considerPoint s p).path = s.path := by
  unfold considerPoint
  by_cases h1 : s.minx > p.1 <;> by_cases h2 : s.maxx < p.1 <;>
    by_cases h3 : s.miny > p.2 <;> by_cases h4 : s.maxy < p.2 <;>
    simp [h1, h2, h3, h4]

theorem consider_nil (s : SVGPathPen) : consider_min_max s [] = s := rfl

theorem consider_cons (s : SVGPathPen) (p : Point) (ps : List Point) :
    consider_min_max s (p :: ps) = consider_min_max (considerPoint s p) ps := rfl

theorem consider_append (s : SVGPathPen) (l1 l2 : List Point) :
    consider_min_max s (l1 ++ l2) = consider_min_max (consider_min_max s l1) l2 := by
  unfold consider_min_max
  exact List.foldl_append _ _ _ _

theorem consider_path (s : SVGPathPen) (ps : List Point) :
    (consider_min_max s ps).path = s.path := by
  induction ps generalizing s with
  | nil => rfl
  | cons p ps ih => rw [consider_cons, ih, considerPoint_path]

theorem considerPoint_minx_le (s : SVGPathPen) (p : Point) :
    (considerPoint s p).minx ≤ s.minx := by
  rw [considerPoint_minx]; split_ifs with h
  · exact le_of_lt h
  · exact le_refl _

theorem considerPoint_le_maxx (s : SVGPathPen) (p : Point) :
    s.maxx ≤ (considerPoint s p).maxx := by
  rw [considerPoint_maxx]; split_ifs with h
  · exact le_of_lt h
  · exact le_refl _

theorem considerPoint_miny_le (s : SVGPathPen) (p : Point) :
    (considerPoint s p).miny ≤ s.miny := by
  rw [considerPoint_miny]; split_ifs with h
  · exact le_of_lt h
  · exact le_refl _

theorem considerPoint_le_maxy (s : SVGPathPen) (p : Point) :
    s.maxy ≤ (considerPoint s p).maxy := by
  rw [considerPoint_maxy]; split_ifs with h
  · exact le_of_lt h
  · exact le_refl _

theorem considerPoint_minx_le_fst (s : SVGPathPen) (p : Point) :
    (considerPoint s p).minx ≤ p.1 := by
  rw [considerPoint_minx]; split_ifs with h
  · exact le_refl _
  · exact not_lt.mp h

theorem considerPoint_fst_le_maxx (s : SVGPathPen) (p : Point) :
    p.1 ≤ (considerPoint s p).maxx := by
  rw [considerPoint_maxx]; split_ifs with h
  · exact le_refl _
  · exact not_lt.mp h

theorem considerPoint_miny_le_snd (s : SVGPathPen) (p : Point) :
    (considerPoint s p).miny ≤ p.2 := by
  rw [considerPoint_miny]; split_ifs with h
  · exact le_refl _
  · exact not_lt.mp h

theorem considerPoint_snd_le_maxy (s : SVGPathPen) (p : Point) :
    p.2 ≤ (considerPoint s p).maxy := by
  rw [considerPoint_maxy]; split_ifs with h
  · exact le_refl _
  · exact not_lt.mp h

theorem consider_minx_le (s : SVGPathPen) (ps : List Point) :
    (consider_min_max s ps).minx ≤ s.minx := by
  induction ps generalizing s with
  | nil => exact le_refl _
  | cons p ps ih =>
    rw [consider_cons]
    exact le_trans (ih _) (considerPoint_minx_le s p)

theorem consider_le_maxx (s : SVGPathPen) (ps : List Point) :
    s.maxx ≤ (consider_min_max s ps).maxx := by
  induction ps generalizing s with
  | nil => exact le_refl _
  | cons p ps ih =>
    rw [consider_cons]
    exact le_trans (considerPoint_le_maxx s p) (ih _)

theorem consider_miny_le (s : SVGPathPen) (ps : List Point) :
    (consider_min_max s ps).miny ≤ s.miny := by
  induction ps generalizing s with
  | nil => exact le_refl _
  | cons p ps ih =>
    rw [consider_cons]
    exact le_trans (ih _) (considerPoint_miny_le s p)

theorem consider_le_maxy (s : SVGPathPen) (ps : List Point) :
    s.maxy ≤ (consider_min_max s ps).maxy := by
  induction ps generalizing s with
  | nil => exact le_refl _
  | cons p ps ih =>
    rw [consider_cons]
    exact le_trans (considerPoint_le_maxy s p) (ih _)

theorem consider_contains (s : SVGPathPen) (ps : List Point) (p : Point)
    (hp : p ∈ ps) :
    (consider_min_max s ps).minx ≤ p.1 ∧ p.1 ≤ (consider_min_max s ps).maxx ∧
      (consider_min_max s ps).miny ≤ p.2 ∧ p.2 ≤ (consider_min_max s ps).maxy := by
  induction ps generalizing s with
  | nil => cases hp
  | cons q ps ih =>
    rw [consider_cons]
    rcases List.mem_cons.mp hp with hq | hmem
    · subst hq
      exact ⟨le_trans (consider_minx_le _ _) (considerPoint_minx_le_fst s p),
        le_trans (considerPoint_fst_le_maxx s p) (consider_le_maxx _ _),
        le_trans (consider_miny_le _ _) (considerPoint_miny_le_snd s p),
        le_trans (considerPoint_snd_le_maxy s p) (consider_le_maxy _ _)⟩
    · exact ih _ hmem

theorem extrema_extend_path (s : SVGPathPen) (t : String) :
    extrema (s.extend_path t) = extrema s := rfl

theorem considerPoint_extrema_congr (s1 s2 : SVGPathPen) (p : Point)
    (h : extrema s1 = extrema s2) :
    extrema (considerPoint s1 p) = extrema (considerPoint s2 p) := by
  simp only [extrema, Prod.mk.injEq] at h ⊢
  obtain ⟨h1, h2, h3, h4⟩ := h
  rw [considerPoint_minx, considerPoint_maxx, considerPoint_miny, considerPoint_maxy,
    considerPoint_minx, considerPoint_maxx, considerPoint_miny, considerPoint_maxy,
    h1, h2, h3, h4]
  exact ⟨rfl, rfl, rfl, rfl⟩

theorem consider_extrema_congr (ps : List Point) (s1 s2 : SVGPathPen)
    (h : extrema s1 = extrema s2) :
    extrema (consider_min_max s1 ps) = extrema (consider_min_max s2 ps) := by
  induction ps generalizing s1 s2 with
  | nil => exact h
  | cons p ps ih =>
    rw [consider_cons, consider_cons]
    exact ih _ _ (considerPoint_extrema_congr s1 s2 p h)

/-! Character-level lemmas about rendered numbers: the numeric text emitted
by the formatter consists only of digits, a sign, a separator - never an
SVG path command letter and never a decimal point in the integer branch. -/

theorem digitChar_plain (n : ℕ) (h : n < 16) :
    plainChar (Nat.digitChar n) = true := by
  interval_cases n <;> rfl

theorem toDigitsCore_plain (fuel : ℕ) : ∀ (n : ℕ) (acc : List Char),
    (∀ c ∈ acc, plainChar c = true) →
    ∀ c ∈ Nat.toDigitsCore 10 fuel n acc, plainChar c = true := by
  induction fuel with
  | zero =>
    intro n acc h c hc
    exact h c hc
  | succ f ih =>
    intro n acc h c hc
    simp only [Nat.toDigitsCore] at hc
    have hcons : ∀ x ∈ Nat.digitChar (n % 10) :: acc, plainChar x = true := by
      intro x hx
      rcases List.mem_cons.mp hx with hx | hx
      · rw [hx]
        exact digitChar_plain _ (lt_trans (Nat.mod_lt n (by norm_num)) (by norm_num))
      · exact h x hx
    split at hc
    · exact hcons c hc
    · exact ih (n / 10) _ hcons c hc

theorem natRepr_plain (n : ℕ) : ∀ c ∈ (Nat.repr n).data, plainChar c = true := by
  intro c hc
  exact toDigitsCore_plain (n + 1) n [] (by intro x hx; cases hx) c hc

theorem natToString_plain (n : ℕ) : ∀ c ∈ (toString n).data, plainChar c = true :=
  natRepr_plain n

theorem intToString_plain (n : ℤ) : ∀ c ∈ (toString n).data, plainChar c = true := by
  cases n with
  | ofNat m => exact natToString_plain m
  | negSucc m =>
    intro c hc
    have : (toString (Int.negSucc m)).data = '-' :: (toString (m + 1)).data := rfl
    rw [this] at hc
    rcases List.mem_cons.mp hc with hc | hc
    · rw [hc]; rfl
    · exact natToString_plain (m + 1) c hc

theorem display_plain (x : IntegerOrFloat) :
    ∀ c ∈ x.display.data, plainChar c = true := by
  cases x with
  | integer n => exact intToString_plain n
  | float q =>
    intro c hc
    have hdata : (IntegerOrFloat.display (.float q)).data =
        ((toString q.num).data ++ "/".data) ++ (toString q.den).data := by
      show (toString q.num ++ "/" ++ toString q.den).data = _
      rw [String.data_append, String.data_append]
    rw [hdata] at hc
    rcases List.mem_append.mp hc with hc | hc
    · rcases List.mem_append.mp hc with hc | hc
      · exact intToString_plain q.num c hc
      · have hslash : "/".data = ['/'] := rfl
        rw [hslash] at hc
        rcases List.mem_cons.mp hc with hc | hc
        · rw [hc]; rfl
        · cases hc
    · exact natToString_plain q.den c hc

theorem plain_not_command (c : Char) (h : plainChar c = true) :
    isCommandChar c = false := by
  simp only [plainChar, Bool.and_eq_true, Bool.not_eq_true'] at h
  exact h.1

theorem countCommands_append (s t : String) :
    countCommands (s ++ t) = countCommands s + countCommands t := by
  unfold countCommands
  rw [String.data_append, List.filter_append, List.length_append]

theorem countCommands_plain (s : String)
    (h : ∀ c ∈ s.data, plainChar c = true) : countCommands s = 0 := by
  unfold countCommands
  rw [List.filter_eq_nil_iff.mpr ?h]
  · rfl
  · intro c hc
    simpa using plain_not_command c (h c hc)

theorem countCommands_pStr (s : SVGPathPen) (v : ℚ) :
    countCommands (s.pStr v) = 0 :=
  countCommands_plain _ (display_plain _)

/-! Lemmas about the transcoder loop. -/

theorem countCommands_moveTok : countCommands ("M ") = 1 := rfl

theorem countCommands_lineTok : countCommands ("L ") = 1 := rfl

theorem countCommands_quadTok : countCommands ("Q ") = 1 := rfl

theorem countCommands_cubicTok : countCommands ("C ") = 1 := rfl

theorem countCommands_closeTok : countCommands ("Z") = 1 := rfl

theorem countCommands_space : countCommands (" ") = 0 := rfl

theorem countCommands_move (s : SVGPathPen) (pt : Point) :
    countCommands (s.move_to pt).path = countCommands s.path + 1 := by
  simp only [SVGPathPen.move_to, SVGPathPen.extend_path, countCommands_append,
    consider_path, countCommands_pStr, countCommands_moveTok, countCommands_space]

theorem countCommands_line (s : SVGPathPen) (pt : Point) :
    countCommands (s.line_to pt).path = countCommands s.path + 1 := by
  simp only [SVGPathPen.line_to, SVGPathPen.extend_path, countCommands_append,
    consider_path, countCommands_pStr, countCommands_lineTok, countCommands_space]

theorem countCommands_qcurve (s : SVGPathPen) (p0 p1 p2 : Point) :
    countCommands (s.qcurve_to p0 p1 p2).path = countCommands s.path + 1 := by
  simp only [SVGPathPen.qcurve_to, SVGPathPen.extend_path, countCommands_append,
    consider_path, countCommands_pStr, countCommands_quadTok, countCommands_space]

theorem countCommands_curve (s : SVGPathPen) (p0 p1 p2 p3 : Point) :
    countCommands (s.curve_to p0 p1 p2 p3).path = countCommands s.path + 1 := by
  simp only [SVGPathPen.curve_to, SVGPathPen.extend_path, countCommands_append,
    consider_path, countCommands_pStr, countCommands_cubicTok, countCommands_space]

theorem countCommands_close (s : SVGPathPen) :
    countCommands s.close_path.path = countCommands s.path + 1 := by
  simp only [SVGPathPen.close_path, SVGPathPen.extend_path, countCommands_append,
    countCommands_closeTok]

theorem applyVerb_count (s s1 : SVGPathPen) (v : Verb)
    (h : applyVerb s v = some s1) :
    countCommands s1.path = countCommands s.path + 1 := by
  cases v with
  | move p0 =>
    obtain rfl : s.move_to p0 = s1 := Option.some.inj h
    exact countCommands_move s p0
  | line p0 p1 =>
    obtain rfl : s.line_to p1 = s1 := Option.some.inj h
    exact countCommands_line s p1
  | quad p0 p1 p2 =>
    obtain rfl : s.qcurve_to p0 p1 p2 = s1 := Option.some.inj h
    exact countCommands_qcurve s p0 p1 p2
  | cubic p0 p1 p2 p3 =>
    obtain rfl : s.curve_to p0 p1 p2 p3 = s1 := Option.some.inj h
    exact countCommands_curve s p0 p1 p2 p3
  | close =>
    obtain rfl : s.close_path = s1 := Option.some.inj h
    exact countCommands_close s
  | conic p0 p1 p2 w => cases h
  | done => cases h

theorem applyVerbs_count (l : List Verb) : ∀ s s1 : SVGPathPen,
    applyVerbs s l = some s1 →
    countCommands s1.path = countCommands s.path + l.length := by
  induction l with
  | nil =>
    intro s s1 h
    obtain rfl : s = s1 := Option.some.inj h
    rfl
  | cons v l ih =>
    intro s s1 h
    unfold applyVerbs at h
    cases hv : applyVerb s v with
    | none => rw [hv] at h; cases h
    | some s2 =>
      rw [hv] at h
      rw [ih s2 s1 h, applyVerb_count s s2 v hv, List.length_cons]
      omega

theorem apply_outline_count (s s1 : SVGPathPen) (o : List Verb)
    (h : apply_outline s o = some s1) :
    countCommands s1.path = countCommands s.path + o.length := by
  unfold apply_outline at h
  rw [applyVerbs_count _ s s1 h, List.length_map]

theorem applyVerb_extrema (s s1 : SVGPathPen) (v : Verb)
    (h : applyVerb s v = some s1) :
    extrema s1 = extrema (consider_min_max s v.consumedPoints) := by
  cases v with
  | move p0 => obtain rfl := Option.some.inj h; rfl
  | line p0 p1 => obtain rfl := Option.some.inj h; rfl
  | quad p0 p1 p2 => obtain rfl := Option.some.inj h; rfl
  | cubic p0 p1 p2 p3 => obtain rfl := Option.some.inj h; rfl
  | close => obtain rfl := Option.some.inj h; rfl
  | conic p0 p1 p2 w => cases h
  | done => cases h

theorem applyVerbs_extrema (l : List Verb) : ∀ s s1 : SVGPathPen,
    applyVerbs s l = some s1 →
    extrema s1 = extrema (consider_min_max s (l.flatMap Verb.consumedPoints)) := by
  induction l with
  | nil =>
    intro s s1 h
    obtain rfl : s = s1 := Option.some.inj h
    rfl
  | cons v l ih =>
    intro s s1 h
    unfold applyVerbs at h
    cases hv : applyVerb s v with
    | none => rw [hv] at h; cases h
    | some s2 =>
      rw [hv] at h
      rw [List.flatMap_cons, consider_append]
      rw [ih s2 s1 h]
      exact consider_extrema_congr _ _ _ (applyVerb_extrema s s2 v hv)

theorem consumedPoints_mapPoints (f : Point → Point) (v : Verb) :
    (Verb.mapPoints f v).consumedPoints = v.consumedPoints.map f := by
  cases v <;> rfl

theorem flatMap_consumed_map (f : Point → Point) (o : List Verb) :
    (o.map (Verb.mapPoints f)).flatMap Verb.consumedPoints =
      (o.flatMap Verb.consumedPoints).map f := by
  induction o with
  | nil => rfl
  | cons v o ih =>
    rw [List.map_cons, List.flatMap_cons, List.flatMap_cons, List.map_append,
      consumedPoints_mapPoints, ih]

theorem apply_outline_extrema (s s1 : SVGPathPen) (o : List Verb)
    (h : apply_outline s o = some s1) :
    extrema s1 =
      extrema (consider_min_max s
        ((o.flatMap Verb.consumedPoints).map (transformPt s))) := by
  unfold apply_outline at h
  rw [applyVerbs_extrema _ s s1 h, flatMap_consumed_map]

theorem supported_mapPoints (f : Point → Point) (v : Verb) :
    (Verb.mapPoints f v).supported = v.supported := by
  cases v <;> rfl

theorem applyVerb_unsupported (s : SVGPathPen) (v : Verb)
    (hu : v.supported = false) : applyVerb s v = none := by
  cases v with
  | move p0 => cases hu
  | line p0 p1 => cases hu
  | quad p0 p1 p2 => cases hu
  | cubic p0 p1 p2 p3 => cases hu
  | close => cases hu
  | conic p0 p1 p2 w => rfl
  | done => rfl

theorem applyVerbs_unsupported (l : List Verb) (v : Verb) (hv : v ∈ l)
    (hu : v.supported = false) : ∀ s : SVGPathPen, applyVerbs s l = none := by
  induction l with
  | nil => cases hv
  | cons w l ih =>
    intro s
    unfold applyVerbs
    rcases List.mem_cons.mp hv with hw | hmem
    · subst hw
      rw [applyVerb_unsupported s v hu]
    · cases hw : applyVerb s w with
      | none => rfl
      | some s2 => exact ih hmem s2

theorem apply_outline_unsupported (s : SVGPathPen) (o : List Verb) (v : Verb)
    (hv : v ∈ o) (hu : v.supported = false) : apply_outline s o = none := by
  unfold apply_outline
  exact applyVerbs_unsupported _ (Verb.mapPoints (transformPt s) v)
    (List.mem_map_of_mem _ hv)
    (by rw [supported_mapPoints]; exact hu) s

/-! Numeric lemmas about truncation and the precision formatter. -/

theorem ratTrunc_le_self (q : ℚ) (h : 0 ≤ q) : (ratTrunc q : ℚ) ≤ q := by
  rw [ratTrunc, if_pos h]
  exact Int.floor_le q

theorem self_le_ratTrunc (q : ℚ) (h : q ≤ 0) : q ≤ (ratTrunc q : ℚ) := by
  rw [ratTrunc]
  split_ifs with h0
  · have hq : q = 0 := le_antisymm h h0
    rw [hq]
    simp
  · exact Int.le_ceil q

theorem pow_ten_pos (n : ℕ) : (0 : ℚ) < 10 ^ n := by positivity

theorem p_le_self (s : SVGPathPen) (v : ℚ) (h : 0 ≤ v) : s.p v ≤ v := by
  unfold SVGPathPen.p
  have hc : (0 : ℚ) < 10 ^ s.precision := pow_ten_pos _
  have hle : (ratTrunc (v * 10 ^ s.precision) : ℚ) ≤ v * 10 ^ s.precision :=
    ratTrunc_le_self _ (mul_nonneg h (le_of_lt hc))
  calc (ratTrunc (v * 10 ^ s.precision) : ℚ) / 10 ^ s.precision
      ≤ v * 10 ^ s.precision / 10 ^ s.precision :=
        (div_le_div_iff_of_pos_right hc).mpr hle
    _ = v := mul_div_cancel_right₀ v (ne_of_gt hc)

theorem self_le_p (s : SVGPathPen) (v : ℚ) (h : v ≤ 0) : v ≤ s.p v := by
  unfold SVGPathPen.p
  have hc : (0 : ℚ) < 10 ^ s.precision := pow_ten_pos _
  have hle : v * 10 ^ s.precision ≤ (ratTrunc (v * 10 ^ s.precision) : ℚ) :=
    self_le_ratTrunc _ (mul_nonpos_of_nonpos_of_nonneg h (le_of_lt hc))
  calc v = v * 10 ^ s.precision / 10 ^ s.precision :=
        (mul_div_cancel_right₀ v (ne_of_gt hc)).symm
    _ ≤ (ratTrunc (v * 10 ^ s.precision) : ℚ) / 10 ^ s.precision :=
        (div_le_div_iff_of_pos_right hc).mpr hle

theorem display_no_dot (x : IntegerOrFloat) : ('.' : Char) ∉ x.display.data := by
  intro hmem
  have hplain := display_plain x '.' hmem
  simp [plainChar, isCommandChar] at hplain

/-! Claim theorems. -/

/-- Claim C4: the Precision Formatter computes trunc of the value scaled by
ten to the precision, divided back down - truncation toward zero, so the
formatted value is at most v for nonnegative v and at least v for
nonpositive v - and integral results render with no decimal point (hence no
trailing dot-zero). -/
theorem claim4_precision_trunc (s : SVGPathPen) (v : ℚ) :
    s.p v = (ratTrunc (v * 10 ^ s.precision) : ℚ) / 10 ^ s.precision ∧
    (0 ≤ v → s.p v ≤ v) ∧
    (v ≤ 0 → v ≤ s.p v) ∧
    ((s.p v).den = 1 → ('.' : Char) ∉ (IntegerOrFloat.ofRat (s.p v)).display.data) :=
  ⟨rfl, p_le_self s v, self_le_p s v, fun _ => display_no_dot _⟩

/-- Witness for claim C4 at concrete inputs: each hypothesis of the claim
theorem is satisfiable and discharged. -/
theorem claim4_witness :
    ((0 : ℚ) ≤ 5 / 2 ∧ SVGPathPen.new.p (5 / 2) ≤ 5 / 2) ∧
    ((-5 / 2 : ℚ) ≤ 0 ∧ (-5 / 2 : ℚ) ≤ SVGPathPen.new.p (-5 / 2)) ∧
    ((SVGPathPen.new.p 3).den = 1 ∧
      ('.' : Char) ∉ (IntegerOrFloat.ofRat (SVGPathPen.new.p 3)).display.data) :=
  ⟨⟨by norm_num, (claim4_precision_trunc SVGPathPen.new (5 / 2)).2.1 (by norm_num)⟩,
   ⟨by norm_num, (claim4_precision_trunc SVGPathPen.new (-5 / 2)).2.2.1 (by norm_num)⟩,
   ⟨by with_unfolding_all rfl,
    (claim4_precision_trunc SVGPathPen.new 3).2.2.2 (by with_unfolding_all rfl)⟩⟩

/-- Claim C5: the four extrema start at 0, every accumulator update only
widens them (min non-increasing, max non-decreasing, never narrowed), and
after any observation sequence the box contains every observed point. -/
theorem claim5_bbox (s : SVGPathPen) (ps : List Point) (p : Point)
    (hp : p ∈ ps) :
    (SVGPathPen.new.minx = 0 ∧ SVGPathPen.new.maxx = 0 ∧
      SVGPathPen.new.miny = 0 ∧ SVGPathPen.new.maxy = 0) ∧
    ((consider_min_max s ps).minx ≤ s.minx ∧
      s.maxx ≤ (consider_min_max s ps).maxx ∧
      (consider_min_max s ps).miny ≤ s.miny ∧
      s.maxy ≤ (consider_min_max s ps).maxy) ∧
    ((consider_min_max s ps).minx ≤ p.1 ∧ p.1 ≤ (consider_min_max s ps).maxx ∧
      (consider_min_max s ps).miny ≤ p.2 ∧ p.2 ≤ (consider_min_max s ps).maxy) :=
  ⟨⟨rfl, rfl, rfl, rfl⟩,
   ⟨consider_minx_le s ps, consider_le_maxx s ps,
    consider_miny_le s ps, consider_le_maxy s ps⟩,
   consider_contains s ps p hp⟩

/-- Witness for claim C5: the membership hypothesis discharged at a concrete
point list. -/
theorem claim5_witness :
    (SVGPathPen.new.minx = 0 ∧ SVGPathPen.new.maxx = 0 ∧
      SVGPathPen.new.miny = 0 ∧ SVGPathPen.new.maxy = 0) ∧
    ((consider_min_max SVGPathPen.new [((1 : ℚ), (2 : ℚ))]).minx ≤ SVGPathPen.new.minx ∧
      SVGPathPen.new.maxx ≤ (consider_min_max SVGPathPen.new [((1 : ℚ), (2 : ℚ))]).maxx ∧
      (consider_min_max SVGPathPen.new [((1 : ℚ), (2 : ℚ))]).miny ≤ SVGPathPen.new.miny ∧
      SVGPathPen.new.maxy ≤ (consider_min_max SVGPathPen.new [((1 : ℚ), (2 : ℚ))]).maxy) ∧
    ((consider_min_max SVGPathPen.new [((1 : ℚ), (2 : ℚ))]).minx ≤ ((1 : ℚ), (2 : ℚ)).1 ∧
      ((1 : ℚ), (2 : ℚ)).1 ≤ (consider_min_max SVGPathPen.new [((1 : ℚ), (2 : ℚ))]).maxx ∧
      (consider_min_max SVGPathPen.new [((1 : ℚ), (2 : ℚ))]).miny ≤ ((1 : ℚ), (2 : ℚ)).2 ∧
      ((1 : ℚ), (2 : ℚ)).2 ≤ (consider_min_max SVGPathPen.new [((1 : ℚ), (2 : ℚ))]).maxy) :=
  claim5_bbox SVGPathPen.new [((1 : ℚ), (2 : ℚ))] ((1 : ℚ), (2 : ℚ))
    (List.mem_singleton.mpr rfl)

/-- Claim C6: the viewBox tuple is (minx, miny, abs minx + maxx, abs miny +
maxy) - the additive extent formula, not maxx - minx - its string is the
four precision-formatted components, and width/height mode uses the same
dx/dy formulas, each independently precision-formatted with a px suffix. -/
theorem claim6_viewbox_formula (s : SVGPathPen) :
    s.viewBox = (s.minx, s.miny, |s.minx| + s.maxx, |s.miny| + s.maxy) ∧
    s.viewBox_str = s.pStr s.minx ++ " " ++ s.pStr s.miny ++ " " ++
      s.pStr (|s.minx| + s.maxx) ++ " " ++ s.pStr (|s.miny| + s.maxy) ∧
    s.width = |s.minx| + s.maxx ∧
    s.height = |s.miny| + s.maxy ∧
    s.px_size_attrs = [("width", s.pStr (|s.minx| + s.maxx) ++ "px"),
      ("height", s.pStr (|s.miny| + s.maxy) ++ "px")] :=
  ⟨rfl, rfl, rfl, rfl, rfl⟩

/-- Claim C7: the coordinate transform passes x through unchanged and flips
y according to the no_viewbox flag: viewBox mode adds maxy + miny to the
negated y, width/height mode adds miny. -/
theorem claim7_transform (s : SVGPathPen) (x y : ℚ) :
    s.transform_x x = x ∧
    (s.no_viewbox = false → s.transform_y y = -y + s.maxy + s.miny) ∧
    (s.no_viewbox = true → s.transform_y y = -y + s.miny) := by
  refine ⟨rfl, fun h => ?hvb, fun h => ?hwh⟩ <;>
    simp [SVGPathPen.transform_y, SVGPathPen.transform_y_viewBox,
      SVGPathPen.transform_y_wh, h]

/-- Witness for claim C7: both flag hypotheses discharged at concrete pens. -/
theorem claim7_witness :
    (SVGPathPen.new.no_viewbox = false ∧
      SVGPathPen.new.transform_y 7 = -7 + SVGPathPen.new.maxy + SVGPathPen.new.miny) ∧
    (({ SVGPathPen.new with no_viewbox := true } : SVGPathPen).no_viewbox = true ∧
      ({ SVGPathPen.new with no_viewbox := true } : SVGPathPen).transform_y 7 =
        -7 + ({ SVGPathPen.new with no_viewbox := true } : SVGPathPen).miny) :=
  ⟨⟨rfl, (claim7_transform SVGPathPen.new 0 7).2.1 rfl⟩,
   ⟨rfl, (claim7_transform { SVGPathPen.new with no_viewbox := true } 0 7).2.2 rfl⟩⟩

/-- Claim C9 counterexample: a freshly created SVGPathPen does not have
precision 16; the derivative Default gives 4. -/
theorem claim9_counterexample : SVGPathPen.new.precision ≠ 16 := by decide

/-- Claim C9 amended: a freshly created SVGPathPen has precision 4; the
16-digit default is the clap argument default, applied to the pen as caller
configuration afterwards. -/
theorem claim9_amended :
    SVGPathPen.new.precision = 4 ∧ cliDefaultPrecision = 16 ∧
    ∀ cfg : Config, (configuredPen cfg).precision = cfg.precision :=
  ⟨rfl, rfl, fun _ => rfl⟩

/-- Claim C1 counterexample: processing a single Move at source point
(10, 10) from a fresh pen leaves the accumulator at extrema (0, 10, -10, 0)
- the y fed to consider_min_max was the already-flipped -10 - whereas
accumulating the raw source point would give (0, 10, 0, 10).  The claim
that the accumulator always sees raw, untransformed coordinates is false. -/
theorem claim1_counterexample :
    (apply_outline SVGPathPen.new [Verb.move (10, 10)]).map extrema =
      some (0, 10, -10, 0) ∧
    extrema (consider_min_max SVGPathPen.new [((10 : ℚ), (10 : ℚ))]) =
      (0, 10, 0, 10) ∧
    (apply_outline SVGPathPen.new [Verb.move (10, 10)]).map extrema ≠
      some (extrema (consider_min_max SVGPathPen.new [((10 : ℚ), (10 : ℚ))])) := by
  refine ⟨by with_unfolding_all rfl, by with_unfolding_all rfl, ?hne⟩
  intro hcontra
  rw [show extrema (consider_min_max SVGPathPen.new [((10 : ℚ), (10 : ℚ))]) =
      (0, 10, 0, 10) by with_unfolding_all rfl] at hcontra
  rw [show (apply_outline SVGPathPen.new [Verb.move (10, 10)]).map extrema =
      some (0, 10, -10, 0) by with_unfolding_all rfl] at hcontra
  have h4 := congrArg (fun t => t.getD (0, 0, 0, 0)) hcontra
  simp only [Option.getD_some] at h4
  have hy : (-10 : ℚ) = 0 := congrArg (fun t => t.2.2.1) h4
  norm_num at hy

/-- Claim C1 amended: every point a verb consumes is fed to the accumulator
before precision formatting, but only after the coordinate transform has
been applied by to_skia_paths: the final extrema equal the fold of
consider_min_max over the transformed consumed points, so the accumulator
observes flipped-y coordinates. -/
theorem claim1_amended (s s1 : SVGPathPen) (o : List Verb)
    (h : apply_outline s o = some s1) :
    extrema s1 = extrema (consider_min_max s
      ((o.flatMap Verb.consumedPoints).map (transformPt s))) :=
  apply_outline_extrema s s1 o h

/-- Witness for claim C1 amended at a concrete one-verb outline. -/
theorem claim1_witness :
    extrema ({ path := "M 10 -10", minx := 0, maxx := 10,
               miny := -10, maxy := 0, precision := 4,
               no_viewbox := false } : SVGPathPen) =
      extrema (consider_min_max SVGPathPen.new
        (([Verb.move (10, 10)].flatMap Verb.consumedPoints).map
          (transformPt SVGPathPen.new))) :=
  claim1_amended SVGPathPen.new _ [Verb.move (10, 10)]
    (by with_unfolding_all rfl)

/-- Claim C8: a verb outside the five supported ones (here skia's conic, or
the iterator's done) aborts the conversion - apply_outline hits the
unimplemented! panic, modelled as none - and the whole run produces no
output whatsoever. -/
theorem claim8_unsupported_fatal (cfg : Config) (metrics : MetricsResult)
    (width : Option ℕ) (s : SVGPathPen) (o : List Verb) (v : Verb)
    (hv : v ∈ o) (hu : v.supported = false) :
    apply_outline s o = none ∧ runMain cfg metrics width (some o) = none := by
  have hnone : ∀ s2 : SVGPathPen, apply_outline s2 o = none := fun s2 =>
    apply_outline_unsupported s2 o v hv hu
  refine ⟨hnone s, ?hmain⟩
  unfold runMain
  cases hm : seedMetrics (configuredPen cfg) cfg metrics (some o) with
  | none => rfl
  | some svg1 => simp [applyOutlineOpt, hnone]

/-- Witness for claim C8 at a concrete conic-carrying outline. -/
theorem claim8_witness :
    Verb.conic (0, 0) (1, 1) (2, 2) 1 ∈ [Verb.conic (0, 0) (1, 1) (2, 2) 1] ∧
    (Verb.conic (0, 0) (1, 1) (2, 2) 1).supported = false ∧
    apply_outline SVGPathPen.new [Verb.conic (0, 0) (1, 1) (2, 2) 1] = none ∧
    runMain { no_viewbox := false, no_metrics := true, precision := 16 }
      MetricsResult.unavailable none
      (some [Verb.conic (0, 0) (1, 1) (2, 2) 1]) = none := by
  have h := claim8_unsupported_fatal
    { no_viewbox := false, no_metrics := true, precision := 16 }
    MetricsResult.unavailable none SVGPathPen.new
    [Verb.conic (0, 0) (1, 1) (2, 2) 1] (Verb.conic (0, 0) (1, 1) (2, 2) 1)
    (List.mem_singleton.mpr rfl) rfl
  exact ⟨List.mem_singleton.mpr rfl, rfl, h.1, h.2⟩

/-! Lemmas about the main pipeline. -/

theorem p_zero (s : SVGPathPen) : s.p 0 = 0 := by
  simp [SVGPathPen.p, ratTrunc]

theorem pStr_zero (s : SVGPathPen) : s.pStr 0 = "0" := by
  unfold SVGPathPen.pStr
  rw [p_zero]
  rfl

theorem viewBox_str_zero (s : SVGPathPen) (h1 : s.minx = 0) (h2 : s.maxx = 0)
    (h3 : s.miny = 0) (h4 : s.maxy = 0) : s.viewBox_str = "0 0 0 0" := by
  unfold SVGPathPen.viewBox_str SVGPathPen.viewBox
  dsimp only
  rw [h1, h2, h3, h4, abs_zero, zero_add, pStr_zero]
  rfl

theorem runMain_char_none (cfg : Config) (metrics : MetricsResult)
    (width : Option ℕ) (outline : Option (List Verb))
    (hseed : seedMetrics (configuredPen cfg) cfg metrics outline = none) :
    runMain cfg metrics width outline = none := by
  unfold runMain
  rw [hseed]

theorem runMain_char (cfg : Config) (metrics : MetricsResult)
    (width : Option ℕ) (outline : Option (List Verb)) (svg1 : SVGPathPen)
    (hseed : seedMetrics (configuredPen cfg) cfg metrics outline = some svg1) :
    runMain cfg metrics width outline =
      match applyOutlineOpt (seedWidth svg1 cfg width) outline with
      | none => none
      | some svg3 => some { sizing := mkSizing (seedWidth svg1 cfg width),
                            d := svg3.path, final := svg3 } := by
  unfold runMain
  rw [hseed]

/-- Claim C2 counterexample: with no_metrics set and viewBox mode, a run over
a one-Move outline emits the sizing before the transcoding pass: the
attached viewBox is 0 0 0 0 while the path data already contains the
coordinates 10 and -10, and the sizing disagrees with what the final
accumulator state would give (0 -10 10 10).  The sizing therefore neither
runs after transcoding over the final accumulator state nor contains every
emitted coordinate. -/
theorem claim2_counterexample :
    (runMain { no_viewbox := false, no_metrics := true, precision := 2 }
        MetricsResult.unavailable none (some [Verb.move (10, 10)])).map
      (fun out => (out.sizing, out.d, mkSizing out.final)) =
      some ([("viewBox", "0 0 0 0")], "M 10 -10",
        [("viewBox", "0 -10 10 10")]) ∧
    ([("viewBox", "0 0 0 0")] : List (String × String)) ≠
      [("viewBox", "0 -10 10 10")] := by
  constructor
  · with_unfolding_all rfl
  · intro hcontra
    have hs : ("0 0 0 0" : String) = "0 -10 10 10" :=
      congrArg (fun l => (l.headD ("", "")).2) hcontra
    have hlen := congrArg (fun t : String => t.data.length) hs
    simp at hlen

/-- Claim C2 amended: the Document Sizer runs once, but before the main
transcoding pass, over the accumulator state produced by metrics and width
seeding alone; in particular with no_metrics set (and viewBox mode) the
emitted viewBox is always 0 0 0 0 no matter what geometry the outline
contains, so the emitted box need not contain the emitted coordinates. -/
theorem claim2_amended (cfg : Config) (metrics : MetricsResult)
    (width : Option ℕ) (outline : Option (List Verb)) (out : MainOutput)
    (hn : cfg.no_metrics = true) (hv : cfg.no_viewbox = false)
    (h : runMain cfg metrics width outline = some out) :
    out.sizing = [("viewBox", "0 0 0 0")] := by
  have hseed : seedMetrics (configuredPen cfg) cfg metrics outline =
      some (configuredPen cfg) := by
    unfold seedMetrics
    rw [hn]
    rfl
  have hwidth : seedWidth (configuredPen cfg) cfg width = configuredPen cfg := by
    unfold seedWidth
    rw [hn]
    rfl
  have hsizing : mkSizing (configuredPen cfg) = [("viewBox", "0 0 0 0")] := by
    unfold mkSizing
    have hnv : (configuredPen cfg).no_viewbox = false := hv
    rw [hnv, viewBox_str_zero (configuredPen cfg) rfl rfl rfl rfl]
    rfl
  rw [runMain_char cfg metrics width outline (configuredPen cfg) hseed,
    hwidth] at h
  cases ho : applyOutlineOpt (configuredPen cfg) outline with
  | none => rw [ho] at h; cases h
  | some svg3 =>
    rw [ho] at h
    have h2 :
        ({ sizing := mkSizing (configuredPen cfg), d := svg3.path,
           final := svg3 } : MainOutput) = out := Option.some.inj h
    rw [← h2]
    exact hsizing

/-- Witness for claim C2 amended: a concrete no_metrics run. -/
theorem claim2_witness :
    MainOutput.sizing
        { sizing := [("viewBox", "0 0 0 0")], d := "",
          final := configuredPen { no_viewbox := false, no_metrics := true,
                                   precision := 2 } } =
      [("viewBox", "0 0 0 0")] :=
  claim2_amended { no_viewbox := false, no_metrics := true, precision := 2 }
    MetricsResult.unavailable none none _ rfl rfl (by with_unfolding_all rfl)

/-- Claim C3: when the metrics lookup succeeds (metrics mode on), ascender
and descender seed maxy/miny before the transcoding pass and are never
reconciled with the geometry afterwards - the emitted sizing equals the
sizing of the metrics-plus-width-seeded pen, a state that mentions no
outline geometry at all. -/
theorem claim3_metrics_precedence (cfg : Config) (a d : ℚ)
    (width : Option ℕ) (outline : Option (List Verb)) (out : MainOutput)
    (hn : cfg.no_metrics = false)
    (h : runMain cfg (MetricsResult.ok a d) width outline = some out) :
    out.sizing = mkSizing (metricsSeededPen cfg a d width) := by
  have hseed : seedMetrics (configuredPen cfg) cfg (MetricsResult.ok a d)
      outline = some { configuredPen cfg with maxy := a, miny := d } := by
    unfold seedMetrics
    rw [hn]
    rfl
  have hwidth : seedWidth { configuredPen cfg with maxy := a, miny := d }
      cfg width = metricsSeededPen cfg a d width := by
    unfold seedWidth
    rw [hn]
    rfl
  rw [runMain_char cfg (MetricsResult.ok a d) width outline _ hseed,
    hwidth] at h
  cases ho : applyOutlineOpt (metricsSeededPen cfg a d width) outline with
  | none => rw [ho] at h; cases h
  | some svg3 =>
    rw [ho] at h
    have h2 :
        ({ sizing := mkSizing (metricsSeededPen cfg a d width),
           d := svg3.path, final := svg3 } : MainOutput) = out := Option.some.inj h
    rw [← h2]

/-- Witness for claim C3: a concrete metrics-seeded run with ascender 800,
descender -200 and advance width 500. -/
theorem claim3_witness :
    MainOutput.sizing
        { sizing := [("viewBox", "0 -200 500 1000")], d := "",
          final := metricsSeededPen { no_viewbox := false, no_metrics := false,
                                      precision := 2 } 800 (-200) (some 500) } =
      mkSizing (metricsSeededPen { no_viewbox := false, no_metrics := false,
                                   precision := 2 } 800 (-200) (some 500)) :=
  claim3_metrics_precedence
    { no_viewbox := false, no_metrics := false, precision := 2 }
    800 (-200) (some 500) none _ rfl (by with_unfolding_all rfl)

/-- Claim C10: when metrics mode is enabled but the lookup fails and the
glyph has an outline, apply_outline runs twice over the same outline (once
in the failure branch, once in the unconditional pass), so the emitted d
attribute contains each verb's command token twice: its command-letter
count is twice the verb count. -/
theorem claim10_double_outline (cfg : Config) (width : Option ℕ)
    (o : List Verb) (out : MainOutput)
    (hn : cfg.no_metrics = false)
    (h : runMain cfg MetricsResult.failed width (some o) = some out) :
    countCommands out.d = 2 * o.length := by
  have hseed : seedMetrics (configuredPen cfg) cfg MetricsResult.failed
      (some o) = apply_outline (configuredPen cfg) o := by
    unfold seedMetrics
    rw [hn]
    rfl
  cases h1 : apply_outline (configuredPen cfg) o with
  | none =>
    rw [runMain_char_none cfg MetricsResult.failed width (some o)
      (hseed.trans h1)] at h
    cases h
  | some svg1 =>
    rw [runMain_char cfg MetricsResult.failed width (some o) svg1
      (hseed.trans h1)] at h
    cases h2 : applyOutlineOpt (seedWidth svg1 cfg width) (some o) with
    | none => rw [h2] at h; cases h
    | some svg3 =>
      rw [h2] at h
      have h3 :
          ({ sizing := mkSizing (seedWidth svg1 cfg width),
             d := svg3.path, final := svg3 } : MainOutput) = out := Option.some.inj h
      have c1 : countCommands svg1.path = o.length := by
        have hc := apply_outline_count (configuredPen cfg) svg1 o h1
        have hempty : countCommands (configuredPen cfg).path = 0 := rfl
        rw [hempty] at hc
        omega
      have hwpath : (seedWidth svg1 cfg width).path = svg1.path := by
        unfold seedWidth
        split_ifs <;> rfl
      have c2 : countCommands svg3.path = countCommands svg1.path + o.length := by
        have hc := apply_outline_count (seedWidth svg1 cfg width) svg3 o h2
        rw [hwpath] at hc
        exact hc
      rw [← h3]
      show countCommands svg3.path = 2 * o.length
      omega

/-- Witness for claim C10: a concrete failed-metrics run over a one-Move
outline whose d attribute carries two Move tokens. -/
theorem claim10_witness :
    countCommands
        (MainOutput.d
          { sizing := [("viewBox", "0 -10 0 10")], d := "M 10 -10M 10 -20",
            final := { path := "M 10 -10M 10 -20", minx := 0, maxx := 10,
                       miny := -20, maxy := 0, precision := 2,
                       no_viewbox := false } }) =
      2 * [Verb.move ((10 : ℚ), (10 : ℚ))].length :=
  claim10_double_outline
    { no_viewbox := false, no_metrics := false, precision := 2 } none
    [Verb.move ((10 : ℚ), (10 : ℚ))] _ rfl (by with_unfolding_all rfl)

end Glif2Svg
